import Mathlib

/-!
Verification development for `visualize_with_rerun.py`, a converter from
COLMAP-style hierarchical reconstruction results (points3D.txt, cameras.txt,
images.txt in nested cluster directories) to a stream of point events for an
external 3D viewer.

Modelling conventions:
* a text file is a `List String` of its physical lines with the trailing
  newline removed (none of the operations the program performs on a line —
  `startswith('#')`, `strip()`, `split()` — can distinguish the two forms);
* Python string primitives (`strip`, `split`, `startswith('#')`,
  `replace('/', '_')`) are modelled by structurally recursive functions on
  the character list of the string, so that every definition evaluates by
  kernel reduction;
* a Python `float` produced by `float(token)` is modelled exactly by a
  fraction `PyF` (integer numerator over a power-of-ten denominator, kept
  unreduced so that kernel reduction works); the coercion `toQ` into `ℚ`
  is applied where the program computes with the values (the camera
  geometry); the transcendental per-leaf color formula is modelled over `ℝ`;
* Python exceptions raised by `float(...)` / `int(...)` are modelled by
  `Except ParseErr`; an uncaught exception aborts the surrounding computation
  exactly as `Except` short-circuits;
* `float(s)` / `int(s)` are modelled by `pyFloat` / `pyInt` on the decimal
  grammar `[+-]?digits[.digits][(e|E)[+-]?digits]` resp. `[+-]?digits`
  (the special forms `inf`/`nan`/underscores are not modelled; no input in
  the claims uses them);
* the `np.uint8` cast performed by `np.array(colors, dtype=np.uint8)` is
  modelled as reduction modulo 256 (`u8`), the wraparound semantics of the
  unsigned 8-bit dtype.
-/

/-- Characters removed by Python `str.strip()` (ASCII whitespace suffices
for the inputs of this format). -/
def isWS (c : Char) : Bool := c == ' ' || c == '\t' || c == '\n' || c == '\r'

/-- Python `str.strip()` on a character list. -/
def trimChars (l : List Char) : List Char :=
  ((l.dropWhile isWS).reverse.dropWhile isWS).reverse

/-- Python `s.strip()`. -/
def pyTrim (s : String) : String := ⟨trimChars s.data⟩

/-- Python `s.startswith('#')`: the first character is `#`. -/
def startsHash (s : String) : Bool :=
  match s.data with
  | '#' :: _ => true
  | _ => false

/-- Python `not s.strip()`: the line strips to nothing. -/
def blankLine (s : String) : Bool := (trimChars s.data).isEmpty

/-- Helper for `pySplit`: split a character list on whitespace runs,
accumulating the current (reversed) token. -/
def splitWSAux : List Char → List Char → List (List Char)
  | [], acc => if acc.isEmpty then [] else [acc.reverse]
  | c :: rest, acc =>
    if isWS c then
      if acc.isEmpty then splitWSAux rest []
      else acc.reverse :: splitWSAux rest []
    else splitWSAux rest (c :: acc)

/-- Python `s.split()` with no argument: split on runs of whitespace,
dropping empty pieces. -/
def pySplit (s : String) : List String := (splitWSAux s.data []).map (fun l => ⟨l⟩)

/-- Value of a decimal digit character. -/
def digitVal (c : Char) : ℕ := c.toNat - 48

/-- Natural number denoted by a list of decimal digit characters. -/
def digitsToNat (l : List Char) : ℕ := l.foldl (fun a c => a * 10 + digitVal c) 0

/-- Parse a nonempty all-digit character list. -/
def parseDigits (l : List Char) : Option ℕ :=
  if !l.isEmpty && l.all Char.isDigit then some (digitsToNat l) else none

/-- Python `int(s)` on a character list: optional sign followed by digits. -/
def pyIntChars : List Char → Option ℤ
  | [] => none
  | '+' :: rest => (parseDigits rest).map (fun n => (n : ℤ))
  | '-' :: rest => (parseDigits rest).map (fun n => -(n : ℤ))
  | l => (parseDigits l).map (fun n => (n : ℤ))

/-- Python `int(s)`: surrounding whitespace is tolerated, as in CPython. -/
def pyInt (s : String) : Option ℤ := pyIntChars (trimChars s.data)

/-- Exact value of a Python decimal float literal: an integer numerator over
a power-of-ten denominator, kept unreduced. -/
structure PyF where
  num : ℤ
  den : ℕ
deriving Repr, DecidableEq

/-- The rational value of a parsed float. -/
def toQ (p : PyF) : ℚ := (p.num : ℚ) / (p.den : ℚ)

/-- Negation of a parsed float (Python unary minus on the literal). -/
def pyNeg (p : PyF) : PyF := ⟨-p.num, p.den⟩

/-- Mantissa of a Python float literal: `digits`, `digits.digits`,
`digits.` or `.digits`. -/
def pyMantissa (l : List Char) : Option PyF :=
  let ip := l.takeWhile (fun c => c != '.')
  let rest := l.dropWhile (fun c => c != '.')
  match rest with
  | [] =>
      if !ip.isEmpty && ip.all Char.isDigit then some ⟨(digitsToNat ip : ℤ), 1⟩ else none
  | _ :: fp =>
      if !(ip.isEmpty && fp.isEmpty) && ip.all Char.isDigit && fp.all Char.isDigit then
        some ⟨(digitsToNat ip : ℤ) * 10 ^ fp.length + (digitsToNat fp : ℤ), 10 ^ fp.length⟩
      else none

/-- Scale a mantissa by a decimal exponent. -/
def applyExp (m : PyF) (e : ℤ) : PyF :=
  if 0 ≤ e then ⟨m.num * 10 ^ e.toNat, m.den⟩ else ⟨m.num, m.den * 10 ^ (-e).toNat⟩

/-- Python `float(s)` on a character list without sign: mantissa with an
optional `e`/`E` exponent. -/
def pyFloatUnsigned (l : List Char) : Option PyF :=
  let mant := l.takeWhile (fun c => !(c == 'e' || c == 'E'))
  let er := l.dropWhile (fun c => !(c == 'e' || c == 'E'))
  match er with
  | [] => pyMantissa mant
  | _ :: ex =>
      match pyMantissa mant, pyIntChars ex with
      | some m, some e => some (applyExp m e)
      | _, _ => none

/-- Python `float(s)` on a character list: optional sign, then mantissa and
exponent. -/
def pyFloatChars : List Char → Option PyF
  | '+' :: rest => pyFloatUnsigned rest
  | '-' :: rest => (pyFloatUnsigned rest).map pyNeg
  | l => pyFloatUnsigned l

/-- Python `float(s)`: surrounding whitespace is tolerated, as in CPython. -/
def pyFloat (s : String) : Option PyF := pyFloatChars (trimChars s.data)

/-- The `np.uint8` cast: reduction modulo 256. -/
def u8 (z : ℤ) : ℕ := (z % 256).toNat

/-- Error raised by a failed `float(...)` / `int(...)` conversion
(Python `ValueError`), carrying the offending token. -/
structure ParseErr where
  token : String
deriving Repr, DecidableEq

/-- Lift an optional conversion result into `Except`, raising on the token
that failed to convert. -/
def toExc (o : Option α) (tok : String) : Except ParseErr α :=
  match o with
  | some a => .ok a
  | none => .error ⟨tok⟩

/-- The token list of a line: `line.strip().split()`. -/
def lineTokens (l : String) : List String := pySplit (pyTrim l)

/-- Parser for `points3D.txt` (`parse_points3d` in the source): for each
line, skip it when it starts with `#` or strips to nothing; otherwise, when
it splits into at least 7 tokens, convert tokens 1–3 as floats (position)
and tokens 4–6 as ints (color, stored through the `np.uint8` cast); lines
with fewer tokens are skipped; a failed conversion raises. -/
def parse_points3d : List String → Except ParseErr (List (PyF × PyF × PyF) × List (ℕ × ℕ × ℕ))
  | [] => .ok ([], [])
  | l :: rest =>
    if startsHash l || blankLine l then parse_points3d rest
    else
      let parts := lineTokens l
      if 7 ≤ parts.length then do
        let x ← toExc (pyFloat (parts.getD 1 "")) (parts.getD 1 "")
        let y ← toExc (pyFloat (parts.getD 2 "")) (parts.getD 2 "")
        let z ← toExc (pyFloat (parts.getD 3 "")) (parts.getD 3 "")
        let r ← toExc (pyInt (parts.getD 4 "")) (parts.getD 4 "")
        let g ← toExc (pyInt (parts.getD 5 "")) (parts.getD 5 "")
        let b ← toExc (pyInt (parts.getD 6 "")) (parts.getD 6 "")
        let tl ← parse_points3d rest
        .ok ((x, y, z) :: tl.1, (u8 r, u8 g, u8 b) :: tl.2)
      else parse_points3d rest

/-- Camera intrinsics record from one line of `cameras.txt`. -/
structure CameraIntrinsics where
  model : String
  width : ℤ
  height : ℤ
  params : List PyF
deriving Repr, DecidableEq

/-- Convert a list of tokens with Python `float`, raising on the first
failure (models the list comprehension `[float(p) for p in parts[4:]]`). -/
def pyFloatList : List String → Except ParseErr (List PyF)
  | [] => .ok []
  | t :: ts => do
    let v ← toExc (pyFloat t) t
    let vs ← pyFloatList ts
    .ok (v :: vs)

/-- Parser for `cameras.txt` (`parse_cameras` in the source): skip a line
that starts with `#` or strips to nothing; a line with at least 5 tokens
yields id, model tag, width, height and the float parameter tail. The
Python stores the records in a dict keyed by id (last write wins); the
model returns the keyed records in line order, which the program never
consumes beyond constructing it. -/
def parse_cameras : List String → Except ParseErr (List (ℤ × CameraIntrinsics))
  | [] => .ok []
  | l :: rest =>
    if startsHash l || blankLine l then parse_cameras rest
    else
      let parts := lineTokens l
      if 5 ≤ parts.length then do
        let cam_id ← toExc (pyInt (parts.getD 0 "")) (parts.getD 0 "")
        let width ← toExc (pyInt (parts.getD 2 "")) (parts.getD 2 "")
        let height ← toExc (pyInt (parts.getD 3 "")) (parts.getD 3 "")
        let params ← pyFloatList (parts.drop 4)
        let tl ← parse_cameras rest
        .ok ((cam_id, ⟨parts.getD 1 "", width, height, params⟩) :: tl)
      else parse_cameras rest

/-- Image pose record from one accepted content line of `images.txt`.
The quaternion is stored reordered as (x, y, z, w); the source order is
(w, x, y, z). -/
structure ImagePose where
  id : ℤ
  quat : PyF × PyF × PyF × PyF
  translation : PyF × PyF × PyF
  camera_id : ℤ
  name : String
deriving Repr, DecidableEq

/-- Outcome of looking at one line inside the `parse_images` loop. -/
inductive ImageLineStep where
  | skip
  | noRecord
  | record (pose : ImagePose)
deriving Repr, DecidableEq

/-- One iteration body of the `parse_images` loop on the current line:
a line that (after stripping) starts with `#` or is empty is skipped
without engaging the paired-line logic; a line with at least 10 tokens is
converted to an `ImagePose` (conversion failures raise); any other
non-skipped line produces no record but still engages the paired-line
logic. -/
def imageLineStep (l : String) : Except ParseErr ImageLineStep :=
  if startsHash (pyTrim l) || blankLine l then .ok .skip
  else
    let parts := lineTokens l
    if 10 ≤ parts.length then do
      let img_id ← toExc (pyInt (parts.getD 0 "")) (parts.getD 0 "")
      let qw ← toExc (pyFloat (parts.getD 1 "")) (parts.getD 1 "")
      let qx ← toExc (pyFloat (parts.getD 2 "")) (parts.getD 2 "")
      let qy ← toExc (pyFloat (parts.getD 3 "")) (parts.getD 3 "")
      let qz ← toExc (pyFloat (parts.getD 4 "")) (parts.getD 4 "")
      let tx ← toExc (pyFloat (parts.getD 5 "")) (parts.getD 5 "")
      let ty ← toExc (pyFloat (parts.getD 6 "")) (parts.getD 6 "")
      let tz ← toExc (pyFloat (parts.getD 7 "")) (parts.getD 7 "")
      let cam_id ← toExc (pyInt (parts.getD 8 "")) (parts.getD 8 "")
      .ok (.record ⟨img_id, (qx, qy, qz, qw), (tx, ty, tz), cam_id, parts.getD 9 ""⟩)
    else .ok .noRecord

/-- Parser for `images.txt` (`parse_images` in the source): after any
non-skipped line — whether or not it produced a record — the next physical
line is consumed unchecked, unless it is absent or its raw text starts
with `#`. -/
def parse_images : List String → Except ParseErr (List ImagePose)
  | [] => .ok []
  | l :: rest =>
    match imageLineStep l with
    | .error e => .error e
    | .ok .skip => parse_images rest
    | .ok step =>
      let recs := match step with
        | .record r => [r]
        | _ => []
      match rest with
      | [] => .ok recs
      | t :: rest2 =>
        if startsHash t then Except.map (fun more => recs ++ more) (parse_images (t :: rest2))
        else Except.map (fun more => recs ++ more) (parse_images rest2)

/-- A 3×3 matrix of rationals, written out entrywise as the source builds
its `np.array`. -/
structure Mat3 where
  m00 : ℚ
  m01 : ℚ
  m02 : ℚ
  m10 : ℚ
  m11 : ℚ
  m12 : ℚ
  m20 : ℚ
  m21 : ℚ
  m22 : ℚ

/-- Matrix transpose (`R.T`). -/
def Mat3.transpose (A : Mat3) : Mat3 :=
  ⟨A.m00, A.m10, A.m20, A.m01, A.m11, A.m21, A.m02, A.m12, A.m22⟩

/-- Matrix–vector product (`@`). -/
def Mat3.mulVec (A : Mat3) (v : ℚ × ℚ × ℚ) : ℚ × ℚ × ℚ :=
  (A.m00 * v.1 + A.m01 * v.2.1 + A.m02 * v.2.2,
   A.m10 * v.1 + A.m11 * v.2.1 + A.m12 * v.2.2,
   A.m20 * v.1 + A.m21 * v.2.1 + A.m22 * v.2.2)

/-- Vector negation (unary minus on the product). -/
def negV (v : ℚ × ℚ × ℚ) : ℚ × ℚ × ℚ := (-v.1, -v.2.1, -v.2.2)

/-- Rotation matrix of a quaternion given in (x, y, z, w) component order
(`quaternion_to_rotation_matrix` in the source). -/
def quaternion_to_rotation_matrix (q : ℚ × ℚ × ℚ × ℚ) : Mat3 :=
  let x := q.1
  let y := q.2.1
  let z := q.2.2.1
  let w := q.2.2.2
  ⟨1 - 2*y*y - 2*z*z, 2*x*y - 2*z*w, 2*x*z + 2*y*w,
   2*x*y + 2*z*w, 1 - 2*x*x - 2*z*z, 2*y*z - 2*x*w,
   2*x*z - 2*y*w, 2*y*z + 2*x*w, 1 - 2*x*x - 2*y*y⟩

/-- Rational values of the stored quaternion of an image record. -/
def quatQ (img : ImagePose) : ℚ × ℚ × ℚ × ℚ :=
  (toQ img.quat.1, toQ img.quat.2.1, toQ img.quat.2.2.1, toQ img.quat.2.2.2)

/-- Rational values of the stored translation of an image record. -/
def translationQ (img : ImagePose) : ℚ × ℚ × ℚ :=
  (toQ img.translation.1, toQ img.translation.2.1, toQ img.translation.2.2)

/-- Camera world position from an image record (`get_camera_position` in
the source): `-R.T @ t`. -/
def get_camera_position (img : ImagePose) : ℚ × ℚ × ℚ :=
  let R := quaternion_to_rotation_matrix (quatQ img)
  negV (R.transpose.mulVec (translationQ img))

/-- Relative path of the leaf cluster (i, j):
`C_<i>/C_<i>_<j>/ba_output` (an f-string in the source). -/
def leafPath (i j : ℕ) : String :=
  "C_" ++ toString i ++ "/C_" ++ toString i ++ "_" ++ toString j ++ "/ba_output"

/-- The leaf index pairs (i, j) in the order the two nested `range(1, 5)`
loops of the source produce them. -/
def leafPairs : List (ℕ × ℕ) :=
  ((List.range' 1 4).map (fun i => (List.range' 1 4).map (fun j => (i, j)))).flatten

/-- Relative path of a cluster's points file. -/
def pointsFileOf (p : String) : String := p ++ "/points3D.txt"

/-- The five unconditional cluster candidates with their hand-chosen colors
(the `cluster_paths` literal in the source). -/
def fixedClusterColors : List (String × (ℤ × ℤ × ℤ)) :=
  [("ba_output", (255, 100, 100)),
   ("C_1/ba_output", (100, 255, 100)),
   ("C_2/ba_output", (100, 100, 255)),
   ("C_3/ba_output", (255, 255, 100)),
   ("C_4/ba_output", (255, 100, 255))]

/-- Python `int(x)` on a real value: truncation toward zero. -/
noncomputable def truncInt (x : ℝ) : ℤ := if 0 ≤ x then Int.floor x else -(Int.floor (-x))

/-- The hue scalar of leaf cluster (i, j): `((i-1) * 4 + (j-1)) / 16.0`. -/
noncomputable def hue (i j : ℕ) : ℝ := (((i : ℝ) - 1) * 4 + ((j : ℝ) - 1)) / 16

/-- One color channel of a leaf cluster:
`int(255 * (0.5 + 0.5 * np.sin(hue * 2 * np.pi + phase)))`, where the red
channel has phase 0 and the green/blue channels have the literal phases
2.094 and 4.189. -/
noncomputable def leafChannel (i j : ℕ) (phase : ℝ) : ℤ :=
  truncInt (255 * (0.5 + 0.5 * Real.sin (hue i j * 2 * Real.pi + phase)))

/-- The procedurally generated color of leaf cluster (i, j). -/
noncomputable def leafColor (i j : ℕ) : ℤ × ℤ × ℤ :=
  (leafChannel i j 0, leafChannel i j 2.094, leafChannel i j 4.189)

/-- The full candidate list the source builds in `cluster_paths`: the five
fixed entries, then every leaf cluster whose points file exists (tested with
the existence predicate `ex`), each with its generated color. -/
noncomputable def cluster_paths (ex : String → Bool) : List (String × (ℤ × ℤ × ℤ)) :=
  fixedClusterColors ++
    ((leafPairs.filter (fun ij => ex (pointsFileOf (leafPath ij.1 ij.2)))).map
      (fun ij => (leafPath ij.1 ij.2, leafColor ij.1 ij.2)))

/-- The candidate cluster keys in order, without the colors (the per-cluster
loop of `main` never consumes `default_color`). -/
def clusterKeys (ex : String → Bool) : List String :=
  (fixedClusterColors.map Prod.fst) ++
    ((leafPairs.filter (fun ij => ex (pointsFileOf (leafPath ij.1 ij.2)))).map
      (fun ij => leafPath ij.1 ij.2))

/-- The cluster keys whose points file exists: exactly the clusters the
per-cluster loop of `main` does not `continue` past. -/
def processedClusters (ex : String → Bool) : List String :=
  (clusterKeys ex).filter (fun p => ex (pointsFileOf p))

/-- Python `path.replace('/', '_')` on the cluster key. -/
def flattenKey (s : String) : String :=
  ⟨s.data.map (fun c => if c == '/' then '_' else c)⟩

/-- One event handed to the external viewer: an entity path, point
positions, per-point colors, and a marker radius. Parsed cloud positions
are exact parsed floats; computed camera positions are rationals. -/
inductive Event where
  | points (entity : String) (positions : List (PyF × PyF × PyF))
      (colors : List (ℕ × ℕ × ℕ)) (radius : ℚ)
  | cameraPoint (entity : String) (position : ℚ × ℚ × ℚ)
      (color : ℕ × ℕ × ℕ) (radius : ℚ)

/-- Result of a run of `main`: the files opened for parsing (in order), the
events emitted (in order), and the uncaught exception that ended the run,
if any. -/
structure RunOutcome where
  reads : List String
  events : List Event
  err : Option ParseErr

/-- Processing of one candidate cluster inside the loop of `main`: skip if
the points file is absent; otherwise parse it (a parse failure aborts with
the point cloud unlogged), log the cloud when nonempty at radius 0.05, and
when both `cameras.txt` and `images.txt` exist parse both (failures abort)
and log one cyan camera point per image record at radius 0.03. Returns
(files opened, events emitted, uncaught error). -/
def processCluster (files : String → Option (List String)) (path : String) :
    List String × List Event × Option ParseErr :=
  let pf := pointsFileOf path
  let cf := path ++ "/cameras.txt"
  let imf := path ++ "/images.txt"
  match files pf with
  | none => ([], [], none)
  | some plines =>
    match parse_points3d plines with
    | .error e => ([pf], [], some e)
    | .ok pc =>
      let pevs : List Event :=
        if 0 < pc.1.length then
          [.points ("clusters/" ++ flattenKey path ++ "/points") pc.1 pc.2 (5 / 100)]
        else []
      match files cf, files imf with
      | some clines, some ilines =>
        (match parse_cameras clines with
         | .error e => ([pf, cf], pevs, some e)
         | .ok _cams =>
           match parse_images ilines with
           | .error e => ([pf, cf, imf], pevs, some e)
           | .ok imgs =>
             ([pf, cf, imf],
              pevs ++ imgs.map (fun img =>
                .cameraPoint ("clusters/" ++ flattenKey path ++ "/cameras/" ++ img.name)
                  (get_camera_position img) (0, 255, 255) (3 / 100)),
              none))
      | _, _ => ([pf], pevs, none)

/-- The per-cluster loop of `main` over a list of candidate keys; an
uncaught exception in one cluster ends the loop (and therefore the run)
immediately. -/
def runClusters (files : String → Option (List String)) :
    List String → RunOutcome
  | [] => ⟨[], [], none⟩
  | p :: rest =>
    match processCluster files p with
    | (r, evs, some e) => ⟨r, evs, some e⟩
    | (r, evs, none) =>
      let out := runClusters files rest
      ⟨r ++ out.reads, evs ++ out.events, out.err⟩

/-- Existence predicate of a file tree. -/
def existsOf (files : String → Option (List String)) : String → Bool :=
  fun s => (files s).isSome

/-- The whole conversion (`main` in the source, after viewer setup): build
the candidate list with the existence-filtered leaves, run the per-cluster
loop, and — if no exception ended the loop — parse and log the final merged
cloud at radius 0.015 when its points file exists. -/
def runMain (files : String → Option (List String)) : RunOutcome :=
  let out := runClusters files (clusterKeys (existsOf files))
  match out.err with
  | some e => ⟨out.reads, out.events, some e⟩
  | none =>
    match files (pointsFileOf "ba_output") with
    | none => out
    | some flines =>
      match parse_points3d flines with
      | .error e => ⟨out.reads ++ [pointsFileOf "ba_output"], out.events, some e⟩
      | .ok pc =>
        ⟨out.reads ++ [pointsFileOf "ba_output"],
         out.events ++ [.points "final_reconstruction/points" pc.1 pc.2 (15 / 1000)],
         none⟩


/-- A line is a content line when the skip test of the points/cameras
parsers does not discard it. -/
def contentLine (l : String) : Bool := !(startsHash l || blankLine l)

/-- Position a well-formed points line denotes (fields 1–3). -/
def posOf (l : String) : PyF × PyF × PyF :=
  ((pyFloat ((lineTokens l).getD 1 "")).getD ⟨0, 1⟩,
   (pyFloat ((lineTokens l).getD 2 "")).getD ⟨0, 1⟩,
   (pyFloat ((lineTokens l).getD 3 "")).getD ⟨0, 1⟩)

/-- Stored color a well-formed points line denotes (fields 4–6 through the
uint8 cast). -/
def colorOf (l : String) : ℕ × ℕ × ℕ :=
  (u8 ((pyInt ((lineTokens l).getD 4 "")).getD 0),
   u8 ((pyInt ((lineTokens l).getD 5 "")).getD 0),
   u8 ((pyInt ((lineTokens l).getD 6 "")).getD 0))

/-- A points line is well formed: at least 7 tokens, and its six numeric
fields convert. -/
def wellFormedPoint (l : String) : Bool :=
  decide (7 ≤ (lineTokens l).length) &&
    (pyFloat ((lineTokens l).getD 1 "")).isSome &&
    (pyFloat ((lineTokens l).getD 2 "")).isSome &&
    (pyFloat ((lineTokens l).getD 3 "")).isSome &&
    (pyInt ((lineTokens l).getD 4 "")).isSome &&
    (pyInt ((lineTokens l).getD 5 "")).isSome &&
    (pyInt ((lineTokens l).getD 6 "")).isSome

/-- An images line is convertible: its nine numeric fields among the first
ten tokens all convert. -/
def imgConvOk (l : String) : Bool :=
  (pyInt ((lineTokens l).getD 0 "")).isSome &&
    (pyFloat ((lineTokens l).getD 1 "")).isSome &&
    (pyFloat ((lineTokens l).getD 2 "")).isSome &&
    (pyFloat ((lineTokens l).getD 3 "")).isSome &&
    (pyFloat ((lineTokens l).getD 4 "")).isSome &&
    (pyFloat ((lineTokens l).getD 5 "")).isSome &&
    (pyFloat ((lineTokens l).getD 6 "")).isSome &&
    (pyFloat ((lineTokens l).getD 7 "")).isSome &&
    (pyInt ((lineTokens l).getD 8 "")).isSome

/-- The pose record denoted by the first ten tokens of an images line. -/
def mkPose (l : String) : ImagePose :=
  ⟨(pyInt ((lineTokens l).getD 0 "")).getD 0,
   ((pyFloat ((lineTokens l).getD 2 "")).getD ⟨0, 1⟩,
    (pyFloat ((lineTokens l).getD 3 "")).getD ⟨0, 1⟩,
    (pyFloat ((lineTokens l).getD 4 "")).getD ⟨0, 1⟩,
    (pyFloat ((lineTokens l).getD 1 "")).getD ⟨0, 1⟩),
   ((pyFloat ((lineTokens l).getD 5 "")).getD ⟨0, 1⟩,
    (pyFloat ((lineTokens l).getD 6 "")).getD ⟨0, 1⟩,
    (pyFloat ((lineTokens l).getD 7 "")).getD ⟨0, 1⟩),
   (pyInt ((lineTokens l).getD 8 "")).getD 0,
   (lineTokens l).getD 9 ""⟩

/-- Modelled from the spec: the claimed per-channel formula
`round(255 * (0.5 + 0.5 * sin(hue * 2 * pi + phase)))` — rounding to
nearest — kept for comparison with the code's `int(...)` truncation. -/
noncomputable def leafChannelRound (i j : ℕ) (phase : ℝ) : ℤ :=
  round (255 * (0.5 + 0.5 * Real.sin (hue i j * 2 * Real.pi + phase)))

/-- A two-cluster tree whose first cluster's points file has a
non-numeric field (`bad`) in a numeric column and whose second cluster's
points file is well formed. -/
def filesC1 : String → Option (List String) :=
  fun s =>
    if s = "ba_output/points3D.txt" then some ["1 0 0 bad 10 20 30"]
    else if s = "C_2/ba_output/points3D.txt" then some ["2 1 2 3 10 20 30"]
    else none

/-- A concrete tree with exactly the two points files of the sparse
hierarchy scenario. -/
def filesC6 : String → Option (List String) :=
  fun s =>
    if s = "ba_output/points3D.txt" then some ["1 1 1 1 1 1 1"]
    else if s = "C_2/ba_output/points3D.txt" then some ["2 1 1 1 1 1 1"]
    else none

/-! ### Helper lemmas -/

theorem toExc_some (a : α) (t : String) : toExc (some a) t = .ok a := rfl

theorem toExc_none (t : String) : toExc (none : Option α) t = .error ⟨t⟩ := rfl

theorem exc_ok_bind (a : α) (f : α → Except ParseErr β) :
    ((Except.ok a : Except ParseErr α) >>= f) = f a := rfl

theorem exc_error_bind (e : ParseErr) (f : α → Except ParseErr β) :
    ((Except.error e : Except ParseErr α) >>= f) = .error e := rfl

theorem exc_bind_eq_ok {x : Except ParseErr α} {f : α → Except ParseErr β} {b : β} :
    (x >>= f) = .ok b ↔ ∃ a, x = .ok a ∧ f a = .ok b := by
  cases x with
  | ok a => simp [exc_ok_bind]
  | error e => simp [exc_error_bind]

theorem clusterKeys_eq_map_fst (ex : String → Bool) :
    clusterKeys ex = (cluster_paths ex).map Prod.fst := by
  simp [clusterKeys, cluster_paths, List.map_map, Function.comp]

/-! ### C5 -/

/-- C5 (counterexample): a comment line with leading whitespace is not
skipped by `parse_points3d`; contrary to the claim, it produces a point
record (its 7 tokens are `#`, six numbers, and token 1 onward parse). -/
theorem leading_ws_comment_yields_point :
    parse_points3d [" # 0 0 0 1 2 3"] =
      .ok ([(⟨0, 1⟩, ⟨0, 1⟩, ⟨0, 1⟩)], [(1, 2, 3)]) ∧
    parse_points3d [" # 0 0 0 1 2 3"] ≠ .ok ([], []) := by
  constructor
  · rfl
  · intro h
    rw [show parse_points3d [" # 0 0 0 1 2 3"] =
        .ok ([(⟨0, 1⟩, ⟨0, 1⟩, ⟨0, 1⟩)], [(1, 2, 3)]) from rfl] at h
    simp at h

/-- C5 (amended): `parse_points3d` and `parse_cameras` skip a line exactly
when its raw text starts with `#` or it strips to nothing (a leading-space
comment is not recognized); `parse_images` strips the line before the `#`
test, so there a leading-space comment line is skipped. -/
theorem parsers_skip_hash_and_blank :
    (∀ (l : String) (rest : List String), startsHash l = true ∨ blankLine l = true →
      parse_points3d (l :: rest) = parse_points3d rest) ∧
    (∀ (l : String) (rest : List String), startsHash l = true ∨ blankLine l = true →
      parse_cameras (l :: rest) = parse_cameras rest) ∧
    (∀ (l : String) (rest : List String),
      startsHash (pyTrim l) = true ∨ blankLine l = true →
      parse_images (l :: rest) = parse_images rest) := by
  refine ⟨fun l rest h => ?_, fun l rest h => ?_, fun l rest h => ?_⟩
  · rcases h with h | h <;> simp [parse_points3d, h]
  · rcases h with h | h <;> simp [parse_cameras, h]
  · have hstep : imageLineStep l = .ok .skip := by
      rcases h with h | h <;> simp [imageLineStep, h]
    simp [parse_images, hstep]

/-- C5 (witness for the amended theorem): concrete skips through all three
parsers. -/
theorem parsers_skip_hash_and_blank_witness :
    parse_points3d ["# c", "1 1 1 1 1 1 1"] = parse_points3d ["1 1 1 1 1 1 1"] ∧
    parse_cameras ["  ", "1 P 2 2 0.5"] = parse_cameras ["1 P 2 2 0.5"] ∧
    parse_images ["  # c", "1 1 1 1 1 1 1 1 1 n.jpg"] =
      parse_images ["1 1 1 1 1 1 1 1 1 n.jpg"] :=
  ⟨parsers_skip_hash_and_blank.1 "# c" _ (Or.inl rfl),
   parsers_skip_hash_and_blank.2.1 "  " _ (Or.inr rfl),
   parsers_skip_hash_and_blank.2.2 "  # c" _ (Or.inl rfl)⟩

/-! ### C9 -/

/-- C9: a content line of a points file with at least 7 tokens whose numeric
fields convert is accepted for any integer color tokens — negative or above
255, with no range check and no error — and the stored channel value is the
token's integer value reduced modulo 256 by the unsigned-8-bit cast. -/
theorem parse_points3d_color_mod256 (l : String)
    (h0 : startsHash l = false) (hb : blankLine l = false)
    (h7 : 7 ≤ (lineTokens l).length)
    (x y z : PyF)
    (hx : pyFloat ((lineTokens l).getD 1 "") = some x)
    (hy : pyFloat ((lineTokens l).getD 2 "") = some y)
    (hz : pyFloat ((lineTokens l).getD 3 "") = some z)
    (r g b : ℤ)
    (hr : pyInt ((lineTokens l).getD 4 "") = some r)
    (hg : pyInt ((lineTokens l).getD 5 "") = some g)
    (hb6 : pyInt ((lineTokens l).getD 6 "") = some b) :
    parse_points3d [l] =
      .ok ([(x, y, z)], [((r % 256).toNat, (g % 256).toNat, (b % 256).toNat)]) := by
  simp only [List.getD_eq_getElem?_getD] at hx hy hz hr hg hb6
  simp [parse_points3d, h0, hb, h7, hx, hy, hz, hr, hg, hb6, toExc, u8, exc_ok_bind]

/-- C9 (witness): color tokens 300, -1 and 256 are accepted and stored as
44, 255 and 0. -/
theorem parse_points3d_color_mod256_witness :
    parse_points3d ["7 1.5 2 3 300 -1 256"] =
      .ok ([(⟨15, 10⟩, ⟨2, 1⟩, ⟨3, 1⟩)],
           [((((300 : ℤ)) % 256).toNat, (((-1 : ℤ)) % 256).toNat, (((256 : ℤ)) % 256).toNat)]) :=
  parse_points3d_color_mod256 "7 1.5 2 3 300 -1 256" rfl rfl (by decide)
    ⟨15, 10⟩ ⟨2, 1⟩ ⟨3, 1⟩ rfl rfl rfl 300 (-1) 256 rfl rfl rfl

/-! ### C4 -/

theorem contentLine_true_iff (l : String) :
    contentLine l = true ↔ (startsHash l || blankLine l) = false := by
  unfold contentLine
  cases (startsHash l || blankLine l) <;> simp

theorem contentLine_false_iff (l : String) :
    contentLine l = false ↔ (startsHash l || blankLine l) = true := by
  unfold contentLine
  cases (startsHash l || blankLine l) <;> simp

theorem parse_points3d_cons_content (l : String) (rest : List String)
    (hc : contentLine l = true) (hw : wellFormedPoint l = true) :
    parse_points3d (l :: rest) =
      (parse_points3d rest).map (fun pc => (posOf l :: pc.1, colorOf l :: pc.2)) := by
  have hcond : (startsHash l || blankLine l) = false := (contentLine_true_iff l).mp hc
  simp only [wellFormedPoint, Bool.and_eq_true, decide_eq_true_eq] at hw
  obtain ⟨⟨⟨⟨⟨⟨h7, hx⟩, hy⟩, hz⟩, hr⟩, hg⟩, hb6⟩ := hw
  rw [Option.isSome_iff_exists] at hx hy hz hr hg hb6
  obtain ⟨x, hx⟩ := hx
  obtain ⟨y, hy⟩ := hy
  obtain ⟨z, hz⟩ := hz
  obtain ⟨r, hr⟩ := hr
  obtain ⟨g, hg⟩ := hg
  obtain ⟨b, hb6⟩ := hb6
  have hpos : posOf l = (x, y, z) := by
    unfold posOf
    rw [hx, hy, hz]
    rfl
  have hcol : colorOf l = (u8 r, u8 g, u8 b) := by
    unfold colorOf
    rw [hr, hg, hb6]
    rfl
  simp only [parse_points3d, hcond, Bool.false_eq_true, if_false, if_pos h7,
    hx, hy, hz, hr, hg, hb6, toExc_some, exc_ok_bind]
  cases hpr : parse_points3d rest with
  | error e => rfl
  | ok pc =>
    simp only [Except.map, exc_ok_bind, hpos, hcol, u8]

/-- C4: on a points file whose content lines are all well formed,
`parse_points3d` returns one position and one color per content line,
index-aligned (the i-th position and color are denoted by the i-th content
line); and on any input at all, a successful parse returns position and
color sequences of equal length. -/
theorem parse_points3d_roundtrip :
    (∀ ls : List String, (∀ l ∈ ls, contentLine l = true → wellFormedPoint l = true) →
      parse_points3d ls =
        .ok ((ls.filter contentLine).map posOf, (ls.filter contentLine).map colorOf)) ∧
    (∀ (ls : List String) (ps : List (PyF × PyF × PyF)) (cs : List (ℕ × ℕ × ℕ)),
      parse_points3d ls = .ok (ps, cs) → ps.length = cs.length) := by
  constructor
  · intro ls
    induction ls with
    | nil => intro h; rfl
    | cons l rest ih =>
      intro h
      have hrest := fun l' hm => h l' (List.mem_cons_of_mem _ hm)
      by_cases hc : contentLine l = true
      · rw [parse_points3d_cons_content l rest hc (h l (List.mem_cons_self l rest) hc),
          ih hrest]
        simp [List.filter_cons, hc, Except.map]
      · have hcb : contentLine l = false := by
          cases hcl : contentLine l with
          | true => exact absurd hcl hc
          | false => rfl
        have hcond : (startsHash l || blankLine l) = true := (contentLine_false_iff l).mp hcb
        simp only [parse_points3d, hcond, if_true, ih hrest, List.filter_cons, hcb,
          Bool.false_eq_true, if_false]
  · intro ls
    induction ls with
    | nil =>
      intro ps cs h
      simp only [parse_points3d, Except.ok.injEq, Prod.mk.injEq] at h
      obtain ⟨h1, h2⟩ := h
      rw [← h1, ← h2]
      rfl
    | cons l rest ih =>
      intro ps cs h
      simp only [parse_points3d] at h
      by_cases hcond : (startsHash l || blankLine l) = true
      · rw [if_pos hcond] at h
        exact ih ps cs h
      · rw [if_neg hcond] at h
        by_cases h7 : 7 ≤ (lineTokens l).length
        · rw [if_pos h7] at h
          rcases exc_bind_eq_ok.mp h with ⟨x, hx, h⟩
          rcases exc_bind_eq_ok.mp h with ⟨y, hy, h⟩
          rcases exc_bind_eq_ok.mp h with ⟨z, hz, h⟩
          rcases exc_bind_eq_ok.mp h with ⟨r, hr, h⟩
          rcases exc_bind_eq_ok.mp h with ⟨g, hg, h⟩
          rcases exc_bind_eq_ok.mp h with ⟨b, hb6, h⟩
          rcases exc_bind_eq_ok.mp h with ⟨tl, htl, h⟩
          simp only [Except.ok.injEq, Prod.mk.injEq] at h
          obtain ⟨hps, hcs⟩ := h
          rw [← hps, ← hcs]
          simp [ih tl.1 tl.2 htl]
        · rw [if_neg h7] at h
          exact ih ps cs h

/-- C4 (witness): a concrete file with two well-formed content lines parses
to two aligned positions and colors, and a concrete successful parse has
sequences of equal length. -/
theorem parse_points3d_roundtrip_witness :
    parse_points3d ["# h", "", "1 0.5 2 3 10 20 30", "2 1 2 3 4 5 6"] =
      .ok ([(⟨5, 10⟩, ⟨2, 1⟩, ⟨3, 1⟩), (⟨1, 1⟩, ⟨2, 1⟩, ⟨3, 1⟩)],
           [(10, 20, 30), (4, 5, 6)]) ∧
    (1 : ℕ) = 1 := by
  constructor
  · have h := parse_points3d_roundtrip.1
      ["# h", "", "1 0.5 2 3 10 20 30", "2 1 2 3 4 5 6"] (by decide)
    rw [h]
    rfl
  · exact parse_points3d_roundtrip.2 ["1 1 1 1 1 1 1"]
      [(⟨1, 1⟩, ⟨1, 1⟩, ⟨1, 1⟩)] [(1, 1, 1)] rfl

/-! ### C2 -/

/-- C2: after a line accepted as a pose record, the next physical line is
consumed and discarded — it is never interpreted as a pose record — unless
its raw text starts with `#` (then nothing is skipped) or the accepted line
was the last line of the file; in particular a file of two accepted pose
lines each followed by a non-comment observation line parses to exactly the
two records. -/
theorem parse_images_paired_skip :
    (∀ (l t : String) (rest : List String) (r : ImagePose),
      imageLineStep l = .ok (.record r) → startsHash t = false →
      parse_images (l :: t :: rest) = Except.map (fun ms => r :: ms) (parse_images rest)) ∧
    (∀ (l t : String) (rest : List String) (r : ImagePose),
      imageLineStep l = .ok (.record r) → startsHash t = true →
      parse_images (l :: t :: rest) =
        Except.map (fun ms => r :: ms) (parse_images (t :: rest))) ∧
    (∀ (l : String) (r : ImagePose),
      imageLineStep l = .ok (.record r) → parse_images [l] = .ok [r]) ∧
    (∀ (l1 o1 l2 o2 : String) (r1 r2 : ImagePose),
      imageLineStep l1 = .ok (.record r1) → imageLineStep l2 = .ok (.record r2) →
      startsHash o1 = false → startsHash o2 = false →
      parse_images [l1, o1, l2, o2] = .ok [r1, r2]) := by
  refine ⟨fun l t rest r h ht => ?_, fun l t rest r h ht => ?_,
    fun l r h => ?_, fun l1 o1 l2 o2 r1 r2 h1 h2 ho1 ho2 => ?_⟩
  · cases hpr : parse_images rest <;> simp [parse_images, h, ht, hpr, Except.map]
  · cases hpr : parse_images (t :: rest) <;> simp [parse_images, h, ht, hpr, Except.map]
  · simp [parse_images, h]
  · simp [parse_images, h1, h2, ho1, ho2, Except.map]

/-- C2 (witness): two accepted pose lines with their observation lines
parse to exactly two records. -/
theorem parse_images_paired_skip_witness :
    parse_images
      ["1 0 0 0 1 5 6 7 1 a.jpg", "10 10 20 20", "2 0 0 0 1 5 6 7 1 b.jpg", "11 11"] =
      .ok [⟨1, (⟨0, 1⟩, ⟨0, 1⟩, ⟨1, 1⟩, ⟨0, 1⟩), (⟨5, 1⟩, ⟨6, 1⟩, ⟨7, 1⟩), 1, "a.jpg"⟩,
           ⟨2, (⟨0, 1⟩, ⟨0, 1⟩, ⟨1, 1⟩, ⟨0, 1⟩), (⟨5, 1⟩, ⟨6, 1⟩, ⟨7, 1⟩), 1, "b.jpg"⟩] :=
  parse_images_paired_skip.2.2.2 _ _ _ _ _ _ rfl rfl rfl rfl

/-! ### C8 -/

/-- C8: a non-comment, non-blank line with fewer than 10 tokens produces no
record, yet still consumes the immediately following line whenever that
line's raw text does not start with `#`; in particular a blank following
line is consumed rather than skipped as blank. -/
theorem parse_images_short_line_consumes_next (s : String) (rest : List String)
    (h1 : startsHash (pyTrim s) = false) (h2 : blankLine s = false)
    (h3 : (lineTokens s).length < 10) :
    (∀ t : String, startsHash t = false →
      parse_images (s :: t :: rest) = parse_images rest) ∧
    parse_images (s :: "" :: rest) = parse_images rest := by
  have hstep : imageLineStep s = .ok .noRecord := by
    simp [imageLineStep, h1, h2, Nat.not_le.mpr h3]
  have key : ∀ t : String, startsHash t = false →
      parse_images (s :: t :: rest) = parse_images rest := by
    intro t ht
    cases hpr : parse_images rest <;> simp [parse_images, hstep, ht, hpr, Except.map]
  exact ⟨key, key "" rfl⟩

/-- C8 (witness): a 3-token line consumes the following blank line, so the
comment after them is all that remains. -/
theorem parse_images_short_line_consumes_next_witness :
    parse_images ["1 2 3", "", "# end"] = parse_images ["# end"] ∧
    parse_images ["# end"] = .ok [] :=
  ⟨(parse_images_short_line_consumes_next "1 2 3" ["# end"] rfl rfl (by decide)).2, rfl⟩

/-! ### C10 -/

theorem getD_take (xs : List α) (n i : ℕ) (d : α) (h : i < n) :
    (xs.take n).getD i d = xs.getD i d := by
  simp [List.getD_eq_getElem?_getD, List.getElem?_take, h]

/-- C10: a content line with more than 10 tokens is accepted, not treated
as malformed; the name field is exactly the 10th token, and tokens beyond
the 10th never influence the parse (two lines agreeing on their first ten
tokens parse identically). -/
theorem parse_images_extra_tokens :
    (∀ l : String, startsHash (pyTrim l) = false → blankLine l = false →
      10 < (lineTokens l).length → imgConvOk l = true →
      imageLineStep l = .ok (.record (mkPose l)) ∧
        (mkPose l).name = (lineTokens l).getD 9 "") ∧
    (∀ l l' : String, startsHash (pyTrim l) = false → blankLine l = false →
      startsHash (pyTrim l') = false → blankLine l' = false →
      10 ≤ (lineTokens l).length → 10 ≤ (lineTokens l').length →
      (lineTokens l).take 10 = (lineTokens l').take 10 →
      parse_images [l] = parse_images [l']) := by
  constructor
  · intro l hc hb h10 hconv
    simp only [imgConvOk, Bool.and_eq_true] at hconv
    obtain ⟨⟨⟨⟨⟨⟨⟨⟨h0, h1⟩, h2⟩, h3⟩, h4⟩, h5⟩, h6⟩, h7⟩, h8⟩ := hconv
    rw [Option.isSome_iff_exists] at h0 h1 h2 h3 h4 h5 h6 h7 h8
    obtain ⟨i0, h0⟩ := h0
    obtain ⟨q1, h1⟩ := h1
    obtain ⟨q2, h2⟩ := h2
    obtain ⟨q3, h3⟩ := h3
    obtain ⟨q4, h4⟩ := h4
    obtain ⟨t5, h5⟩ := h5
    obtain ⟨t6, h6⟩ := h6
    obtain ⟨t7, h7⟩ := h7
    obtain ⟨c8, h8⟩ := h8
    have hmk : mkPose l =
        ⟨i0, (q2, q3, q4, q1), (t5, t6, t7), c8, (lineTokens l).getD 9 ""⟩ := by
      unfold mkPose
      rw [h0, h1, h2, h3, h4, h5, h6, h7, h8]
      rfl
    refine ⟨?_, rfl⟩
    rw [hmk]
    simp only [imageLineStep, hc, hb, Bool.or_self, Bool.false_eq_true, if_false,
      if_pos (Nat.le_of_lt h10), h0, h1, h2, h3, h4, h5, h6, h7, h8, toExc_some, exc_ok_bind]
  · intro l l' hc hb hc' hb' h10 h10' htake
    have hg : ∀ i, i < 10 → (lineTokens l).getD i "" = (lineTokens l').getD i "" := by
      intro i hi
      have h2 : ((lineTokens l).take 10).getD i "" = ((lineTokens l').take 10).getD i "" := by
        rw [htake]
      rw [getD_take (lineTokens l) 10 i "" hi, getD_take (lineTokens l') 10 i "" hi] at h2
      exact h2
    have hstep : imageLineStep l = imageLineStep l' := by
      simp only [imageLineStep, hc, hb, hc', hb', Bool.or_self, Bool.false_eq_true,
        if_false, if_pos h10, if_pos h10',
        hg 0 (by norm_num), hg 1 (by norm_num), hg 2 (by norm_num), hg 3 (by norm_num),
        hg 4 (by norm_num), hg 5 (by norm_num), hg 6 (by norm_num), hg 7 (by norm_num),
        hg 8 (by norm_num), hg 9 (by norm_num)]
    simp only [parse_images, hstep]

/-- C10 (witness): a 12-token line is accepted with name token 10, and
extra tokens beyond the 10th do not change the parse. -/
theorem parse_images_extra_tokens_witness :
    imageLineStep "1 0 0 0 1 5 6 7 1 a.jpg x1 x2" =
      .ok (.record ⟨1, (⟨0, 1⟩, ⟨0, 1⟩, ⟨1, 1⟩, ⟨0, 1⟩), (⟨5, 1⟩, ⟨6, 1⟩, ⟨7, 1⟩), 1, "a.jpg"⟩) ∧
    parse_images ["1 0 0 0 1 5 6 7 1 a.jpg x1 x2"] =
      parse_images ["1 0 0 0 1 5 6 7 1 a.jpg zz"] := by
  constructor
  · have h := (parse_images_extra_tokens.1 "1 0 0 0 1 5 6 7 1 a.jpg x1 x2"
      rfl rfl (by decide) rfl).1
    rw [h]
    rfl
  · exact parse_images_extra_tokens.2 _ _ rfl rfl rfl rfl (by decide) (by decide) rfl

/-! ### C7 -/

/-- C7: `get_camera_position` computes `-R.T @ t` for the rotation matrix
`R` built from the stored (x, y, z, w) quaternion; in particular for the
identity quaternion (0, 0, 0, 1) and any stored translation it returns the
negated translation. -/
theorem get_camera_position_spec :
    (∀ img : ImagePose, get_camera_position img =
      negV ((quaternion_to_rotation_matrix (quatQ img)).transpose.mulVec
        (translationQ img))) ∧
    (∀ img : ImagePose, quatQ img = (0, 0, 0, 1) →
      get_camera_position img =
        (-(toQ img.translation.1), -(toQ img.translation.2.1),
         -(toQ img.translation.2.2))) := by
  constructor
  · intro img
    rfl
  · intro img h
    simp only [get_camera_position, h, quaternion_to_rotation_matrix, Mat3.transpose,
      Mat3.mulVec, negV, translationQ, Prod.mk.injEq]
    norm_num

/-- C7 (witness): the identity quaternion with translation (5, 6, 7) gives
camera position (-5, -6, -7). -/
theorem get_camera_position_spec_witness :
    get_camera_position
      ⟨1, (⟨0, 1⟩, ⟨0, 1⟩, ⟨0, 1⟩, ⟨1, 1⟩), (⟨5, 1⟩, ⟨6, 1⟩, ⟨7, 1⟩), 1, "a.jpg"⟩ =
      (-5, -6, -7) := by
  have h := get_camera_position_spec.2
    ⟨1, (⟨0, 1⟩, ⟨0, 1⟩, ⟨0, 1⟩, ⟨1, 1⟩), (⟨5, 1⟩, ⟨6, 1⟩, ⟨7, 1⟩), 1, "a.jpg"⟩
    (by norm_num [quatQ, toQ, Prod.ext_iff])
  rw [h]
  norm_num [toQ, Prod.ext_iff]

/-! ### C3 -/

set_option maxHeartbeats 1000000 in
/-- C3 (counterexample): leaf cluster (1, 1) is assigned red channel
`int(255 * (0.5 + 0.5 * sin 0)) = int(127.5) = 127`, while the claimed
`round(...)` gives 128; the code truncates, it does not round. -/
theorem leaf_color_trunc_vs_round :
    ("C_1/C_1_1/ba_output", leafColor 1 1) ∈ cluster_paths (fun _ => true) ∧
    (leafColor 1 1).1 = 127 ∧
    leafChannelRound 1 1 0 = 128 := by
  have hhue : hue 1 1 = 0 := by
    unfold hue
    norm_num
  have harg : hue 1 1 * 2 * Real.pi + 0 = 0 := by
    rw [hhue]
    ring
  have hval : (255 : ℝ) * (0.5 + 0.5 * Real.sin 0) = 127.5 := by
    rw [Real.sin_zero]
    norm_num
  refine ⟨?_, ?_, ?_⟩
  · have hmem : ((1, 1) : ℕ × ℕ) ∈ leafPairs.filter
        (fun ij => (fun _ => true) (pointsFileOf (leafPath ij.1 ij.2))) := by decide
    have hpath : leafPath 1 1 = "C_1/C_1_1/ba_output" := by decide
    simp only [cluster_paths]
    refine List.mem_append_right _ ?_
    rw [← hpath]
    exact List.mem_map_of_mem _ hmem
  · show leafChannel 1 1 0 = 127
    unfold leafChannel
    rw [harg, hval]
    unfold truncInt
    rw [if_pos (by norm_num : (0 : ℝ) ≤ 127.5)]
    rw [Int.floor_eq_iff]
    constructor <;> norm_num
  · unfold leafChannelRound
    rw [harg, hval, round_eq]
    rw [show (127.5 : ℝ) + 1 / 2 = 128 from by norm_num]
    rw [show ((128 : ℝ)) = ((128 : ℤ) : ℝ) from by norm_num]
    exact Int.floor_intCast 128

set_option maxHeartbeats 1000000 in
/-- C3 (amended): for every leaf cluster (i, j), i, j in 1..4, whose points
file exists, the assigned color has each channel equal to the truncation
toward zero (Python `int`) of `255 * (0.5 + 0.5 * sin(hue * 2 * pi +
phase))` with `hue = ((i-1)*4 + (j-1)) / 16` and phases 0, 2.094, 4.189. -/
theorem leaf_cluster_color_formula (ex : String → Bool) (i j : ℕ)
    (hi1 : 1 ≤ i) (hi4 : i ≤ 4) (hj1 : 1 ≤ j) (hj4 : j ≤ 4)
    (hex : ex (pointsFileOf (leafPath i j)) = true) :
    (leafPath i j,
      (truncInt (255 * (0.5 + 0.5 * Real.sin (hue i j * 2 * Real.pi))),
       truncInt (255 * (0.5 + 0.5 * Real.sin (hue i j * 2 * Real.pi + 2.094))),
       truncInt (255 * (0.5 + 0.5 * Real.sin (hue i j * 2 * Real.pi + 4.189))))) ∈
      cluster_paths ex := by
  have hmem : (i, j) ∈ leafPairs := by
    interval_cases i <;> interval_cases j <;> decide
  have hfil : (i, j) ∈ leafPairs.filter
      (fun ij => ex (pointsFileOf (leafPath ij.1 ij.2))) :=
    List.mem_filter.mpr ⟨hmem, by simpa using hex⟩
  have heq : (leafPath i j, leafColor i j) =
      (leafPath i j,
        (truncInt (255 * (0.5 + 0.5 * Real.sin (hue i j * 2 * Real.pi))),
         truncInt (255 * (0.5 + 0.5 * Real.sin (hue i j * 2 * Real.pi + 2.094))),
         truncInt (255 * (0.5 + 0.5 * Real.sin (hue i j * 2 * Real.pi + 4.189))))) := by
    simp only [leafColor, leafChannel, add_zero]
  simp only [cluster_paths]
  refine List.mem_append_right _ ?_
  rw [← heq]
  exact List.mem_map_of_mem _ hfil

set_option maxHeartbeats 1000000 in
/-- C3 (witness for the amended theorem): leaf (1, 2) with every points
file present. -/
theorem leaf_cluster_color_formula_witness :
    (leafPath 1 2,
      (truncInt (255 * (0.5 + 0.5 * Real.sin (hue 1 2 * 2 * Real.pi))),
       truncInt (255 * (0.5 + 0.5 * Real.sin (hue 1 2 * 2 * Real.pi + 2.094))),
       truncInt (255 * (0.5 + 0.5 * Real.sin (hue 1 2 * 2 * Real.pi + 4.189))))) ∈
      cluster_paths (fun _ => true) :=
  leaf_cluster_color_formula (fun _ => true) 1 2 (by norm_num) (by norm_num)
    (by norm_num) (by norm_num) rfl

/-! ### C1 -/

/-- C1 (counterexample): with a conversion failure in the first cluster's
points file, the run ends with that error and emits no event at all — in
particular nothing for the second cluster, whose points file is well
formed. The failure is not contained to the corrupt cluster. -/
theorem conversion_error_aborts_run :
    (runMain filesC1).err = some ⟨"bad"⟩ ∧
    (runMain filesC1).events = [] ∧
    parse_points3d ["2 1 2 3 10 20 30"] =
      .ok ([(⟨1, 1⟩, ⟨2, 1⟩, ⟨3, 1⟩)], [(10, 20, 30)]) :=
  ⟨rfl, rfl, rfl⟩

theorem processCluster_points_error (files : String → Option (List String))
    (p : String) (ls : List String) (hl : files (pointsFileOf p) = some ls)
    (e : ParseErr) (he : parse_points3d ls = .error e) :
    (processCluster files p).2.2 = some e := by
  simp [processCluster, hl, he]

theorem runClusters_err_isSome (files : String → Option (List String))
    (p : String) (ks : List String) (hp : p ∈ ks)
    (hpe : ((processCluster files p).2.2).isSome = true) :
    ((runClusters files ks).err).isSome = true := by
  induction ks with
  | nil => cases hp
  | cons k rest ih =>
    rcases List.mem_cons.mp hp with hpk | hmem
    · subst hpk
      rcases hk : processCluster files p with ⟨r, evs, eopt⟩
      cases eopt with
      | none => rw [hk] at hpe; simp at hpe
      | some e => simp [runClusters, hk]
    · rcases hk : processCluster files k with ⟨r, evs, eopt⟩
      cases eopt with
      | some e => simp [runClusters, hk]
      | none =>
        simp only [runClusters, hk]
        exact ih hmem

/-- C1 (amended): a `FieldConversionError` in the points file of any
processed cluster is not contained: the exception propagates out of the
per-cluster loop and the whole conversion ends with an error. -/
theorem conversion_error_aborts_whole_run (files : String → Option (List String))
    (p : String) (hp : p ∈ processedClusters (existsOf files))
    (ls : List String) (hl : files (pointsFileOf p) = some ls)
    (e : ParseErr) (he : parse_points3d ls = .error e) :
    ((runMain files).err).isSome = true := by
  have hpe : ((processCluster files p).2.2).isSome = true := by
    rw [processCluster_points_error files p ls hl e he]
    rfl
  have hrc := runClusters_err_isSome files p (clusterKeys (existsOf files))
    (List.mem_of_mem_filter hp) hpe
  unfold runMain
  rcases hout : runClusters files (clusterKeys (existsOf files)) with ⟨rds, evs, eopt⟩
  rw [hout] at hrc
  cases eopt with
  | some e2 => simp
  | none => simp at hrc

/-- C1 (witness for the amended theorem): the concrete two-cluster tree
aborts. -/
theorem conversion_error_aborts_whole_run_witness :
    "ba_output" ∈ processedClusters (existsOf filesC1) ∧
    ((runMain filesC1).err).isSome = true := by
  refine ⟨?_, ?_⟩
  · rw [show processedClusters (existsOf filesC1) = ["ba_output", "C_2/ba_output"] from rfl]
    exact List.mem_cons_self _ _
  · exact conversion_error_aborts_whole_run filesC1 "ba_output"
      (by rw [show processedClusters (existsOf filesC1) = ["ba_output", "C_2/ba_output"] from rfl]
          exact List.mem_cons_self _ _)
      ["1 0 0 bad 10 20 30"] rfl ⟨"bad"⟩ rfl

/-! ### C6 -/

theorem processCluster_reads_exist (files : String → Option (List String))
    (p r : String) (hr : r ∈ (processCluster files p).1) :
    (files r).isSome = true := by
  simp only [processCluster] at hr
  rcases hpf : files (pointsFileOf p) with _ | plines <;> simp only [hpf] at hr
  · simp at hr
  · rcases hpp : parse_points3d plines with e | pc <;> simp only [hpp] at hr
    · simp at hr
      subst hr
      rw [hpf]
      rfl
    · rcases hcf : files (p ++ "/cameras.txt") with _ | clines <;> simp only [hcf] at hr
      · simp at hr
        subst hr
        rw [hpf]
        rfl
      · rcases himf : files (p ++ "/images.txt") with _ | ilines <;> simp only [himf] at hr
        · simp at hr
          subst hr
          rw [hpf]
          rfl
        · rcases hpc : parse_cameras clines with e | cams <;> simp only [hpc] at hr
          · simp at hr
            rcases hr with hr | hr <;> subst hr
            · rw [hpf]; rfl
            · rw [hcf]; rfl
          · rcases hpi : parse_images ilines with e | imgs <;> simp only [hpi] at hr <;>
              simp at hr <;> rcases hr with hr | hr | hr <;> subst hr
            · rw [hpf]; rfl
            · rw [hcf]; rfl
            · rw [himf]; rfl
            · rw [hpf]; rfl
            · rw [hcf]; rfl
            · rw [himf]; rfl

theorem runClusters_reads_exist (files : String → Option (List String))
    (ks : List String) (r : String) (hr : r ∈ (runClusters files ks).reads) :
    (files r).isSome = true := by
  induction ks with
  | nil => simp [runClusters] at hr
  | cons k rest ih =>
    rcases hk : processCluster files k with ⟨rd, evs, eopt⟩
    cases eopt with
    | some e =>
      simp only [runClusters, hk] at hr
      exact processCluster_reads_exist files k r (by rw [hk]; exact hr)
    | none =>
      simp only [runClusters, hk] at hr
      rcases List.mem_append.mp hr with hr | hr
      · exact processCluster_reads_exist files k r (by rw [hk]; exact hr)
      · exact ih hr

theorem runMain_reads_exist (files : String → Option (List String))
    (r : String) (hr : r ∈ (runMain files).reads) :
    (files r).isSome = true := by
  unfold runMain at hr
  rcases hout : runClusters files (clusterKeys (existsOf files)) with ⟨rds, evs, eopt⟩
  simp only [hout] at hr
  have hin : ∀ x, x ∈ rds → (files x).isSome = true := by
    intro x hx
    refine runClusters_reads_exist files (clusterKeys (existsOf files)) x ?_
    rw [hout]
    exact hx
  cases eopt with
  | some e => exact hin r hr
  | none =>
    rcases hpf : files (pointsFileOf "ba_output") with _ | flines <;> simp only [hpf] at hr
    · exact hin r hr
    · rcases hpp : parse_points3d flines with e | pc <;> simp only [hpp] at hr <;>
        simp at hr <;> rcases hr with hr | hr
      · exact hin r hr
      · subst hr; rw [hpf]; rfl
      · exact hin r hr
      · subst hr; rw [hpf]; rfl

set_option maxHeartbeats 2000000 in
/-- C6: candidates are enumerated in the fixed order — top-level merged
cluster, the four first-level clusters, then the sixteen leaves — and a
cluster is processed only if its points file exists; on a tree where only
`ba_output/` and `C_2/ba_output/` have a points file, exactly those two
clusters are processed, in that order, and every file the run opens is one
of those two points files. -/
theorem sparse_hierarchy_discovery (files : String → Option (List String))
    (h : ∀ s, (files s).isSome =
      (s == "ba_output/points3D.txt" || s == "C_2/ba_output/points3D.txt")) :
    processedClusters (existsOf files) = ["ba_output", "C_2/ba_output"] ∧
    ∀ r ∈ (runMain files).reads,
      r = "ba_output/points3D.txt" ∨ r = "C_2/ba_output/points3D.txt" := by
  have hfun : existsOf files =
      fun s => (s == "ba_output/points3D.txt" || s == "C_2/ba_output/points3D.txt") :=
    funext (fun s => h s)
  constructor
  · rw [processedClusters, hfun]
    decide
  · intro r hr
    have hex := runMain_reads_exist files r hr
    rw [h r] at hex
    simpa using hex

set_option maxHeartbeats 1000000 in
/-- C6 (witness): the theorem applied to the concrete sparse tree. -/
theorem sparse_hierarchy_discovery_witness :
    processedClusters (existsOf filesC6) = ["ba_output", "C_2/ba_output"] ∧
    ∀ r ∈ (runMain filesC6).reads,
      r = "ba_output/points3D.txt" ∨ r = "C_2/ba_output/points3D.txt" :=
  sparse_hierarchy_discovery filesC6 (by
    intro s
    simp only [filesC6]
    by_cases h1 : s = "ba_output/points3D.txt" <;>
      by_cases h2 : s = "C_2/ba_output/points3D.txt" <;>
      simp [h1, h2])
